import Mathlib

/-!
Shallow embedding of the `shp` CLI core: the `reactor.PodWatcher` event loop,
the `tail.Tail` log streamer, and the `flags.SanitizeBuildRunSpec` request
sanitizer, together with theorems settling the specification claims.

Go channels, watch events and pointers are modelled explicitly:
a channel carries a `closed` flag and closing an already-closed channel is a
runtime fault (`none`); the nondeterministic `select` schedule of the event
loop is modelled as an explicit list of loop inputs; Go pointers that may be
nil become `Option`.
-/

namespace CliVerify

/-! ## Go channel close semantics

`close(ch)` on an already-closed channel panics at runtime in Go.  `goChanClose`
returns `none` exactly in that faulting case. -/

structure GoChan where
  closed : Bool
deriving DecidableEq

def goChanClose (c : GoChan) : Option GoChan :=
  if c.closed then none else some { closed := true }

/-! ## reactor.PodWatcher -/

/-- Pod snapshot carried by a watch event.  The event loop treats it opaquely
(it only hands it to the skip predicate and the hooks), so identity is enough. -/
structure Pod where
  name : String
deriving DecidableEq

/-- A Go `error` value: `none` is the nil error. -/
abbrev Err := String

/-- `watch.EventType`: `Added`, `Modified`, `Deleted` have cases in the
dispatch switch; every other tag (`Error`, `Bookmark`) falls through. -/
inductive EventType where
  | added
  | modified
  | deleted
  | other
deriving DecidableEq

/-- `event.Object`: either an actual `*corev1.Pod` or some other runtime
object (for which the type assertion `event.Object.(*corev1.Pod)` fails). -/
inductive RuntimeObject where
  | pod (p : Pod)
  | nonPod
deriving DecidableEq

/-- One `watch.Event`: a tag plus an optional object payload. -/
structure Event where
  type : EventType
  object : Option RuntimeObject
deriving DecidableEq

/-- One resolution of the three-way `select` in `PodWatcher.Start`: either the
watch channel delivered an event, or `ctx.Done()` fired, or the stop channel
fired. -/
inductive LoopInput where
  | ev (e : Event)
  | ctxDone
  | stop
deriving DecidableEq

/-- `reactor.PodWatcher`.  The context, and the watch subscription itself, are
externalized into the `LoopInput` schedule; `stopCh` is the owned stop
channel, the four function fields mirror the Go struct (nil becomes `none`). -/
structure PodWatcher where
  stopCh : GoChan
  skipPodFn : Option (Pod → Bool)
  onPodAddedFn : Option (Pod → Option Err)
  onPodModifiedFn : Option (Pod → Option Err)
  onPodDeletedFn : Option (Pod → Option Err)

/-- A record of one hook invocation: which tag's hook ran, and on which pod. -/
abbrev HookCall := EventType × Pod

/-- Result of running the event loop on a finite schedule of inputs:
`blocked` means the schedule ran out while the loop was still waiting
(in Go the loop would block for the next channel message); `returned`
carries the two return values of `Start` plus whether `watcher.Stop()` was
called on the underlying subscription before returning. -/
inductive StartOutcome where
  | blocked
  | returned (pod : Option Pod) (err : Option Err) (watcherStopped : Bool)
deriving DecidableEq

/-- The skip test `p.skipPodFn != nil && p.skipPodFn(pod)`. -/
def PodWatcher.skips (w : PodWatcher) (pod : Pod) : Bool :=
  match w.skipPodFn with
  | some f => f pod
  | none => false

/-- `PodWatcher.Start`, the event loop, over an explicit schedule of select
resolutions.  The second argument accumulates the trace of hook invocations
in order.  Mirrors the Go source: nil object → continue; non-Pod object →
continue; skip predicate set and true → continue; then switch on the event
type, calling the matching hook when registered and failing fast on a
non-nil hook error; `ctx.Done()` or the stop channel → `watcher.Stop()` and
return `(nil, nil)`. -/
def PodWatcher.Start (w : PodWatcher) :
    List LoopInput → List HookCall → StartOutcome × List HookCall
  | [], tr => (.blocked, tr)
  | .ev e :: rest, tr =>
    match e.object with
    | none => PodWatcher.Start w rest tr
    | some .nonPod => PodWatcher.Start w rest tr
    | some (.pod pod) =>
      if w.skips pod then
        PodWatcher.Start w rest tr
      else
        match e.type with
        | .added =>
          match w.onPodAddedFn with
          | some fn =>
            match fn pod with
            | some err => (.returned (some pod) (some err) false, tr ++ [(.added, pod)])
            | none => PodWatcher.Start w rest (tr ++ [(.added, pod)])
          | none => PodWatcher.Start w rest tr
        | .modified =>
          match w.onPodModifiedFn with
          | some fn =>
            match fn pod with
            | some err => (.returned (some pod) (some err) false, tr ++ [(.modified, pod)])
            | none => PodWatcher.Start w rest (tr ++ [(.modified, pod)])
          | none => PodWatcher.Start w rest tr
        | .deleted =>
          match w.onPodDeletedFn with
          | some fn =>
            match fn pod with
            | some err => (.returned (some pod) (some err) false, tr ++ [(.deleted, pod)])
            | none => PodWatcher.Start w rest (tr ++ [(.deleted, pod)])
          | none => PodWatcher.Start w rest tr
        | .other => PodWatcher.Start w rest tr
  | .ctxDone :: _, tr => (.returned none none true, tr)
  | .stop :: _, tr => (.returned none none true, tr)

/-- The hook field selected by the dispatch switch for a given event tag. -/
def PodWatcher.hookFor (w : PodWatcher) : EventType → Option (Pod → Option Err)
  | .added => w.onPodAddedFn
  | .modified => w.onPodModifiedFn
  | .deleted => w.onPodDeletedFn
  | .other => none

/-- The hook invocation (if any) that a single delivered event gives rise to:
an event dispatches at most one hook — the one matching its tag — and only
when a pod payload is present, the skip predicate does not suppress it, and
that hook is registered. -/
def PodWatcher.dispatchOf (w : PodWatcher) (e : Event) : Option HookCall :=
  match e.object with
  | some (.pod pod) =>
    if w.skips pod then none
    else
      match w.hookFor e.type with
      | some _ => some (e.type, pod)
      | none => none
  | _ => none

/-- The full effect of one delivered event on the loop: `none` when the event
is ignored (no payload, non-pod payload, skipped, unregistered tag or a tag
outside the switch); otherwise the hook call made and the error that the
hook returns. -/
def PodWatcher.hookOutcome (w : PodWatcher) (e : Event) : Option (HookCall × Option Err) :=
  match e.object with
  | some (.pod pod) =>
    if w.skips pod then none
    else
      match w.hookFor e.type with
      | some fn => some ((e.type, pod), fn pod)
      | none => none
  | _ => none

/-- `PodWatcher.Stop`: `close(p.stopCh)`, faulting (`none`) when the channel
is already closed. -/
def PodWatcher.Stop (w : PodWatcher) : Option PodWatcher :=
  (goChanClose w.stopCh).map fun c => { w with stopCh := c }

/-! ## tail.Tail

Container names and log lines are Go strings, modelled as `List Char`. -/

abbrev GoStr := List Char

/-- `tail.Tail`: only the owned stop channel matters for the stop protocol;
the sinks are modelled by the outputs of the reader tasks below. -/
structure Tail where
  stopCh : GoChan

/-- `Tail.Stop`: `close(t.stopCh)`, faulting (`none`) when already closed. -/
def Tail.Stop (t : Tail) : Option Tail :=
  (goChanClose t.stopCh).map fun c => { t with stopCh := c }

/-- The goroutine `go func() { <-t.ctx.Done(); close(t.stopCh) }()` spawned by
`Tail.Start`: when the context is cancelled it closes the stop channel, with
the same faulting close semantics. -/
def Tail.onCtxDone (t : Tail) : Option Tail :=
  (goChanClose t.stopCh).map fun c => { t with stopCh := c }

/-- `containerName := strings.TrimPrefix(container, "step-")`: drop one
leading `step-` marker when present, otherwise leave the name unchanged. -/
def containerName (container : GoStr) : GoStr :=
  if List.isPrefixOf "step-".data container then container.drop ("step-".data.length)
  else container

/-- One line written to stdout by a reader task:
`fmt.Fprintf(t.stdout, "[%s] %s\n", containerName, sc.Text())`. -/
def tailLineOut (container line : GoStr) : GoStr :=
  "[".data ++ containerName container ++ "] ".data ++ line ++ "\n".data

/-- Outcome of `GetLogs(...).Stream(ctx)` for one attachment: an open error,
or the sequence of complete lines the scanner will deliver. -/
inductive StreamOpen where
  | failure (msg : GoStr)
  | success (lines : List GoStr)

/-- The body of the reader goroutine spawned by `Tail.Start` for one
container: on open failure write the error to the stderr sink and return;
on success write one formatted line to the stdout sink per scanned line.
Result: (lines written to stdout, lines written to stderr). -/
def readerTask (container : GoStr) (opened : StreamOpen) : List GoStr × List GoStr :=
  match opened with
  | .failure msg => ([], [msg])
  | .success lines => (lines.map (tailLineOut container), [])

/-- One attachment requested via `Tail.Start(ns, podName, container)`:
the container name plus what opening its log stream yields. -/
structure Attachment where
  container : GoStr
  opened : StreamOpen

/-- All reader tasks of a `Tail` run: each attachment's task is independent
of every other (one goroutine each).  First component: stdout lines per
attachment, in attachment order; second: the stderr lines. -/
def tailRunAll (atts : List Attachment) : List (List GoStr) × List GoStr :=
  (atts.map fun a => (readerTask a.container a.opened).1,
   (atts.map fun a => (readerTask a.container a.opened).2).flatten)

/-! ## flags.SanitizeBuildRunSpec

The BuildRun spec sub-structures, with Go nil pointers as `none` and the Go
nil slice distinguished from an empty one by `Option`. -/

structure BuildRef where
  name : String
  apiVersion : Option String
deriving DecidableEq

structure ServiceAccount where
  name : Option String
  generate : Option Bool
deriving DecidableEq

structure LocalObjectReference where
  name : String
deriving DecidableEq

structure Image where
  image : String
  credentials : Option LocalObjectReference
  labels : List (String × String)
  annotations : List (String × String)
deriving DecidableEq

structure Duration where
  duration : Int
deriving DecidableEq

structure EnvVar where
  name : String
  value : String
deriving DecidableEq

structure BuildRunSpec where
  buildRef : Option BuildRef
  serviceAccount : Option ServiceAccount
  timeout : Option Duration
  output : Option Image
  env : Option (List EnvVar)
deriving DecidableEq

/-- Go `len` on a possibly-nil slice. -/
def sliceLen {α : Type} : Option (List α) → Nat
  | none => 0
  | some l => l.length

/-- The mutation `SanitizeBuildRunSpec` performs on a non-nil spec, as a pure
function.  Each branch mirrors one `if` of the source, in source order; in
particular `Output.Credentials` is nilled before the `Output` check reads
it, and the `Output` check consults only `Image` and `Credentials`. -/
def sanitizeValue (br : BuildRunSpec) : BuildRunSpec :=
  let buildRef :=
    match br.buildRef with
    | none => none
    | some r => if r.name = "" ∧ r.apiVersion = some "" then none else some r
  let serviceAccount :=
    match br.serviceAccount with
    | none => none
    | some s =>
      if (s.name = none ∨ s.name = some "") ∧ (s.generate = none ∨ s.generate = some false)
      then none else some s
  let output :=
    match br.output with
    | none => none
    | some o =>
      let credentials :=
        match o.credentials with
        | none => none
        | some c => if c.name = "" then none else some c
      if o.image = "" ∧ credentials = none then none
      else some { o with credentials := credentials }
  let timeout :=
    match br.timeout with
    | none => none
    | some t => if t.duration = 0 then none else some t
  let env := if sliceLen br.env = 0 then none else br.env
  { buildRef := buildRef, serviceAccount := serviceAccount, timeout := timeout,
    output := output, env := env }

/-- `flags.SanitizeBuildRunSpec`: a nil spec pointer is returned untouched
(the early `if br == nil` guard); otherwise the spec is sanitized in place. -/
def SanitizeBuildRunSpec : Option BuildRunSpec → Option BuildRunSpec
  | none => none
  | some br => some (sanitizeValue br)

/-! ## Concrete instances used to exercise the theorems -/

/-- A freshly constructed watcher: open stop channel, no hooks. -/
def freshWatcher : PodWatcher :=
  { stopCh := { closed := false }, skipPodFn := none,
    onPodAddedFn := none, onPodModifiedFn := none, onPodDeletedFn := none }

/-- A freshly constructed tail streamer: open stop channel. -/
def freshTail : Tail := { stopCh := { closed := false } }

/-- A hook that rejects the pod named `boom` and accepts all others. -/
def addHookW : Pod → Option Err :=
  fun p => if p.name = "boom" then some "hook failed" else none

/-- A watcher with a skip predicate and an added-pod hook. -/
def watcherW : PodWatcher :=
  { stopCh := { closed := false },
    skipPodFn := some (fun p => p.name == "skipme"),
    onPodAddedFn := some addHookW,
    onPodModifiedFn := none,
    onPodDeletedFn := none }

/-- A watcher whose only registered hook never fails. -/
def watcherQ : PodWatcher :=
  { stopCh := { closed := false },
    skipPodFn := some (fun p => p.name == "skipme"),
    onPodAddedFn := some (fun _ => none),
    onPodModifiedFn := none,
    onPodDeletedFn := none }

/-- A delivery sequence containing a dispatched event, a skipped pod, a
deleted event with no registered delete hook, and a modified event with no
registered modified hook. -/
def eventsQ : List Event :=
  [{ type := .added, object := some (.pod { name := "a" }) },
   { type := .added, object := some (.pod { name := "skipme" }) },
   { type := .deleted, object := some (.pod { name := "a" }) },
   { type := .modified, object := some (.pod { name := "b" }) }]

/-- An output image at its zero value except for a non-empty labels map. -/
def imgLabelsOnly : Image :=
  { image := "", credentials := none, labels := [("k", "v")], annotations := [] }

/-- A spec whose output carries only non-empty labels. -/
def brLabelsOnly : BuildRunSpec :=
  { buildRef := none, serviceAccount := none, timeout := none,
    output := some imgLabelsOnly, env := none }

/-- A spec exercising each zero-value replacement of the sanitizer. -/
def brZeroish : BuildRunSpec :=
  { buildRef := some { name := "", apiVersion := some "" },
    serviceAccount := some { name := some "", generate := none },
    timeout := some { duration := 0 },
    output := some { image := "img", credentials := none, labels := [], annotations := [] },
    env := some [{ name := "A", value := "B" }] }

/-- An output image with empty image, empty-name credentials, and non-empty
labels and annotations. -/
def imgCredLabels : Image :=
  { image := "", credentials := some { name := "" },
    labels := [("a", "b")], annotations := [("c", "d")] }

/-- A spec whose output is `imgCredLabels`. -/
def brCredLabels : BuildRunSpec :=
  { buildRef := none, serviceAccount := none, timeout := none,
    output := some imgCredLabels, env := some [] }

/-! ## Event-loop infrastructure lemmas -/

/-- One delivered event advances the loop according to its `hookOutcome`. -/
lemma start_ev_cons (w : PodWatcher) (e : Event) (rest : List LoopInput)
    (tr : List HookCall) :
    w.Start (.ev e :: rest) tr =
      match w.hookOutcome e with
      | none => w.Start rest tr
      | some (c, none) => w.Start rest (tr ++ [c])
      | some ((ty, pod), some err) =>
        (.returned (some pod) (some err) false, tr ++ [(ty, pod)]) := by
  rcases e with ⟨ty, obj⟩
  rcases obj with _ | (p | _)
  · rfl
  · simp only [PodWatcher.Start, PodWatcher.hookOutcome]
    by_cases hs : w.skips p
    · simp [hs]
    · simp only [hs, Bool.false_eq_true, if_false]
      cases ty with
      | added =>
        cases hfn : w.onPodAddedFn with
        | none => simp [PodWatcher.hookFor, hfn]
        | some fn =>
          cases herr : fn p with
          | none => simp [PodWatcher.hookFor, hfn, herr]
          | some err => simp [PodWatcher.hookFor, hfn, herr]
      | modified =>
        cases hfn : w.onPodModifiedFn with
        | none => simp [PodWatcher.hookFor, hfn]
        | some fn =>
          cases herr : fn p with
          | none => simp [PodWatcher.hookFor, hfn, herr]
          | some err => simp [PodWatcher.hookFor, hfn, herr]
      | deleted =>
        cases hfn : w.onPodDeletedFn with
        | none => simp [PodWatcher.hookFor, hfn]
        | some fn =>
          cases herr : fn p with
          | none => simp [PodWatcher.hookFor, hfn, herr]
          | some err => simp [PodWatcher.hookFor, hfn, herr]
      | other => simp [PodWatcher.hookFor]
  · rfl

/-- If a schedule leaves the loop still waiting with trace `tr'`, appending
more inputs continues the run from `tr'`. -/
lemma start_append_blocked (w : PodWatcher) (l1 l2 : List LoopInput)
    (tr tr' : List HookCall) (h : w.Start l1 tr = (.blocked, tr')) :
    w.Start (l1 ++ l2) tr = w.Start l2 tr' := by
  induction l1 generalizing tr with
  | nil =>
    have heq : tr = tr' := by simpa [PodWatcher.Start] using h
    rw [List.nil_append, heq]
  | cons hd tl ih =>
    cases hd with
    | ctxDone => simp [PodWatcher.Start] at h
    | stop => simp [PodWatcher.Start] at h
    | ev e =>
      rw [List.cons_append] at *
      rw [start_ev_cons] at h ⊢
      rcases hco : w.hookOutcome e with _ | ⟨⟨ty, pod⟩, _ | err⟩
      · simp only [hco] at h ⊢
        exact ih tr h
      · simp only [hco] at h ⊢
        exact ih (tr ++ [(ty, pod)]) h
      · simp only [hco] at h
        exact absurd h (by simp)

/-- The accumulated trace is an append-only log: running with initial trace
`tr` yields the same outcome as with `[]`, with `tr` in front. -/
lemma start_trace (w : PodWatcher) (l : List LoopInput) (tr : List HookCall) :
    w.Start l tr = ((w.Start l []).1, tr ++ (w.Start l []).2) := by
  induction l generalizing tr with
  | nil => simp [PodWatcher.Start]
  | cons hd tl ih =>
    cases hd with
    | ctxDone => simp [PodWatcher.Start]
    | stop => simp [PodWatcher.Start]
    | ev e =>
      simp only [start_ev_cons]
      rcases hco : w.hookOutcome e with _ | ⟨⟨ty, pod⟩, _ | err⟩
      · simp only [hco]
        exact ih tr
      · simp only [hco, List.nil_append]
        rw [ih (tr ++ [(ty, pod)]), ih [(ty, pod)]]
        simp
      · simp only [hco, List.nil_append]

/-- `dispatchOf` is the hook-call component of `hookOutcome`. -/
lemma dispatchOf_eq (w : PodWatcher) (e : Event) :
    w.dispatchOf e = (w.hookOutcome e).map Prod.fst := by
  rcases e with ⟨ty, obj⟩
  rcases obj with _ | (p | _)
  · rfl
  · simp only [PodWatcher.dispatchOf, PodWatcher.hookOutcome]
    by_cases hs : w.skips p
    · simp [hs]
    · simp only [hs, Bool.false_eq_true, if_false]
      cases hf : w.hookFor ty <;> simp [hf]
  · rfl

/-- Building a `hookOutcome` from its ingredients. -/
lemma hookOutcome_mk {w : PodWatcher} {e : Event} {pod : Pod}
    {fn : Pod → Option Err} (hobj : e.object = some (.pod pod))
    (hs : w.skips pod = false) (hf : w.hookFor e.type = some fn) :
    w.hookOutcome e = some ((e.type, pod), fn pod) := by
  rcases e with ⟨ty, obj⟩
  simp only at hobj hf
  subst hobj
  simp [PodWatcher.hookOutcome, hs, hf]

/-- Inverting a dispatched `hookOutcome`: the hook that ran is the registered
hook of the event's own tag, and the recorded error is its return value. -/
lemma hookOutcome_some_elim {w : PodWatcher} {e : Event} {ty : EventType}
    {pod : Pod} {err : Option Err}
    (h : w.hookOutcome e = some ((ty, pod), err)) :
    e.type = ty ∧ ∃ fn, w.hookFor e.type = some fn ∧ fn pod = err := by
  rcases e with ⟨ty', obj⟩
  rcases obj with _ | (p | _)
  · simp [PodWatcher.hookOutcome] at h
  · simp only [PodWatcher.hookOutcome] at h
    by_cases hs : w.skips p
    · simp [hs] at h
    · simp only [hs, Bool.false_eq_true, if_false] at h
      cases hf : w.hookFor ty' with
      | none => simp [hf] at h
      | some fn =>
        simp only [hf, Option.some.injEq, Prod.mk.injEq] at h
        obtain ⟨⟨h1, h2⟩, h3⟩ := h
        subst h1; subst h2
        exact ⟨rfl, fn, rfl, h3⟩
  · simp [PodWatcher.hookOutcome] at h

/-! ## Tail string lemmas -/

lemma isPrefixOf_append_self (l r : GoStr) : List.isPrefixOf l (l ++ r) = true := by
  induction l with
  | nil => simp [List.isPrefixOf]
  | cons c cs ih => simp [List.isPrefixOf, ih]

lemma exists_suffix_of_isPrefixOf (l c : GoStr) (h : List.isPrefixOf l c = true) :
    ∃ r, c = l ++ r := by
  induction l generalizing c with
  | nil => exact ⟨c, rfl⟩
  | cons a as ih =>
    cases c with
    | nil => simp [List.isPrefixOf] at h
    | cons b bs =>
      simp only [List.isPrefixOf, Bool.and_eq_true, beq_iff_eq] at h
      obtain ⟨hab, h2⟩ := h
      obtain ⟨r, hr⟩ := ih bs h2
      exact ⟨r, by simp [hab, hr]⟩

lemma containerName_marker (r : GoStr) : containerName ("step-".data ++ r) = r := by
  unfold containerName
  rw [if_pos (isPrefixOf_append_self "step-".data r), List.drop_left]

lemma containerName_plain (c : GoStr) (h : ¬ ∃ r, c = "step-".data ++ r) :
    containerName c = c := by
  unfold containerName
  rw [if_neg]
  intro hp
  exact h (exists_suffix_of_isPrefixOf "step-".data c hp)

/-! ## Sanitize projection lemmas -/

lemma sanitizeValue_buildRef (br : BuildRunSpec) :
    (sanitizeValue br).buildRef =
      match br.buildRef with
      | none => none
      | some r => if r.name = "" ∧ r.apiVersion = some "" then none else some r := rfl

lemma sanitizeValue_serviceAccount (br : BuildRunSpec) :
    (sanitizeValue br).serviceAccount =
      match br.serviceAccount with
      | none => none
      | some s =>
        if (s.name = none ∨ s.name = some "") ∧
            (s.generate = none ∨ s.generate = some false)
        then none else some s := rfl

lemma sanitizeValue_timeout (br : BuildRunSpec) :
    (sanitizeValue br).timeout =
      match br.timeout with
      | none => none
      | some t => if t.duration = 0 then none else some t := rfl

lemma sanitizeValue_env (br : BuildRunSpec) :
    (sanitizeValue br).env = if sliceLen br.env = 0 then none else br.env := rfl

lemma sanitizeValue_output (br : BuildRunSpec) :
    (sanitizeValue br).output =
      match br.output with
      | none => none
      | some o =>
        if o.image = "" ∧ (match o.credentials with
            | none => none
            | some c => if c.name = "" then none else some c)
              = (none : Option LocalObjectReference)
        then none
        else some { o with credentials :=
          match o.credentials with
          | none => none
          | some c => if c.name = "" then none else some c } := rfl

/-! ## Sanitize per-field characterizations -/

lemma san_buildRef_iff (br : BuildRunSpec) :
    (sanitizeValue br).buildRef = none ↔
      br.buildRef = none ∨ br.buildRef = some { name := "", apiVersion := some "" } := by
  rw [sanitizeValue_buildRef]
  rcases br with ⟨bref, sa, tmo, out, env⟩
  rcases bref with _ | ⟨n, av⟩
  · simp
  · by_cases h : n = "" ∧ av = some ""
    · obtain ⟨h1, h2⟩ := h
      subst h1; subst h2
      simp
    · simp only [h, if_false]
      simp [BuildRef.mk.injEq]
      intro h1 h2
      exact h ⟨h1, h2⟩

lemma san_buildRef_keep (br : BuildRunSpec)
    (h : (sanitizeValue br).buildRef ≠ none) :
    (sanitizeValue br).buildRef = br.buildRef := by
  rw [sanitizeValue_buildRef] at h ⊢
  rcases br with ⟨bref, sa, tmo, out, env⟩
  rcases bref with _ | ⟨n, av⟩
  · rfl
  · by_cases hc : n = "" ∧ av = some ""
    · simp [hc] at h
    · simp [hc]

lemma san_serviceAccount_iff (br : BuildRunSpec) :
    (sanitizeValue br).serviceAccount = none ↔
      br.serviceAccount = none ∨ ∃ sa, br.serviceAccount = some sa ∧
        (sa.name = none ∨ sa.name = some "") ∧
        (sa.generate = none ∨ sa.generate = some false) := by
  rw [sanitizeValue_serviceAccount]
  rcases br with ⟨bref, sa, tmo, out, env⟩
  rcases sa with _ | ⟨n, g⟩
  · simp
  · dsimp only
    by_cases h : (n = none ∨ n = some "") ∧ (g = none ∨ g = some false)
    · simp [h]
    · rw [if_neg h]
      constructor
      · intro hh
        exact absurd hh (by simp)
      · rintro (hh | ⟨sa', hsa', hP⟩)
        · exact absurd hh (by simp)
        · injection hsa' with he
          subst he
          exact absurd hP h

lemma san_serviceAccount_keep (br : BuildRunSpec)
    (h : (sanitizeValue br).serviceAccount ≠ none) :
    (sanitizeValue br).serviceAccount = br.serviceAccount := by
  rw [sanitizeValue_serviceAccount] at h ⊢
  rcases br with ⟨bref, sa, tmo, out, env⟩
  rcases sa with _ | ⟨n, g⟩
  · rfl
  · by_cases hc : (n = none ∨ n = some "") ∧ (g = none ∨ g = some false)
    · simp [hc] at h
    · simp [hc]

lemma san_timeout_iff (br : BuildRunSpec) :
    (sanitizeValue br).timeout = none ↔
      br.timeout = none ∨ br.timeout = some { duration := 0 } := by
  rw [sanitizeValue_timeout]
  rcases br with ⟨bref, sa, tmo, out, env⟩
  rcases tmo with _ | ⟨⟨d⟩⟩
  · simp
  · by_cases h : d = 0
    · subst h; simp
    · simp [h, Duration.mk.injEq]

lemma san_timeout_keep (br : BuildRunSpec)
    (h : (sanitizeValue br).timeout ≠ none) :
    (sanitizeValue br).timeout = br.timeout := by
  rw [sanitizeValue_timeout] at h ⊢
  rcases br with ⟨bref, sa, tmo, out, env⟩
  rcases tmo with _ | ⟨⟨d⟩⟩
  · rfl
  · by_cases hc : d = 0
    · simp [hc] at h
    · simp [hc]

lemma san_env_iff (br : BuildRunSpec) :
    (sanitizeValue br).env = none ↔ sliceLen br.env = 0 := by
  rw [sanitizeValue_env]
  by_cases h : sliceLen br.env = 0
  · simp [h]
  · simp [h]
    rcases br with ⟨bref, sa, tmo, out, env⟩
    rcases env with _ | l
    · simp [sliceLen] at h
    · simp

lemma san_env_keep (br : BuildRunSpec)
    (h : (sanitizeValue br).env ≠ none) :
    (sanitizeValue br).env = br.env := by
  rw [sanitizeValue_env] at h ⊢
  by_cases hc : sliceLen br.env = 0
  · simp [hc] at h
  · simp [hc]

lemma san_output_iff (br : BuildRunSpec) :
    (sanitizeValue br).output = none ↔
      br.output = none ∨ ∃ o, br.output = some o ∧ o.image = "" ∧
        (o.credentials = none ∨ o.credentials = some { name := "" }) := by
  rw [sanitizeValue_output]
  rcases br with ⟨bref, sa, tmo, out, env⟩
  rcases out with _ | ⟨img, creds, lbls, anns⟩
  · simp
  · rcases creds with _ | ⟨⟨cn⟩⟩
    · by_cases h : img = ""
      · simp [h]
      · simp [h]
    · by_cases hc : cn = ""
      · subst hc
        by_cases h : img = ""
        · simp [h]
        · simp [h]
      · simp [hc, LocalObjectReference.mk.injEq]

lemma san_output_keep (br : BuildRunSpec) (o : Image) (hbr : br.output = some o)
    (h : (sanitizeValue br).output ≠ none) :
    (sanitizeValue br).output =
      some { o with credentials :=
        if o.credentials = some { name := "" } then none else o.credentials } := by
  rw [sanitizeValue_output] at h ⊢
  rcases br with ⟨bref, sa, tmo, out, env⟩
  simp only at hbr
  subst hbr
  rcases o with ⟨img, creds, lbls, anns⟩
  rcases creds with _ | ⟨⟨cn⟩⟩
  · by_cases hi : img = ""
    · simp [hi] at h
    · simp [hi]
  · by_cases hc : cn = ""
    · subst hc
      by_cases hi : img = ""
      · simp [hi] at h
      · simp [hi]
    · simp [hc, LocalObjectReference.mk.injEq]

/-! ## Claim theorems -/

/-- C1: The claim says calling `PodWatcher.Stop` or `Tail.Stop` more than
once, or after cancellation already fired the signal, is a safe no-op.  The
code instead performs an unguarded `close` of the stop channel, and closing
an already-closed Go channel panics: the first `Stop` on a fresh instance
succeeds, while a second `Stop` — or a `Tail.Stop` after the context-done
goroutine already closed the channel — faults (`none`). -/
theorem stop_double_close_faults :
    (PodWatcher.Stop freshWatcher).isSome = true ∧
    ((PodWatcher.Stop freshWatcher).bind PodWatcher.Stop) = none ∧
    (Tail.Stop freshTail).isSome = true ∧
    ((Tail.Stop freshTail).bind Tail.Stop) = none ∧
    ((Tail.onCtxDone freshTail).bind Tail.Stop) = none :=
  ⟨rfl, rfl, rfl, rfl, rfl⟩

/-- C2: if the hook dispatched for a delivered notification returns a non-nil
error, the loop terminates at once, returning that notification's pod and
the hook's error; the result — outcome and hook trace alike — is the same
for every continuation `rest` of the stream, so no later notification is
processed. -/
theorem hook_error_fail_fast (w : PodWatcher) (pre rest : List LoopInput)
    (tr : List HookCall) (e : Event) (pod : Pod) (fn : Pod → Option Err)
    (err : Err)
    (hpre : w.Start pre [] = (.blocked, tr))
    (hobj : e.object = some (.pod pod))
    (hskip : w.skips pod = false)
    (hfn : w.hookFor e.type = some fn)
    (herr : fn pod = some err) :
    w.Start (pre ++ .ev e :: rest) [] =
      (.returned (some pod) (some err) false, tr ++ [(e.type, pod)]) := by
  rw [start_append_blocked w pre (.ev e :: rest) [] tr hpre, start_ev_cons,
    hookOutcome_mk hobj hskip hfn, herr]

theorem hook_error_fail_fast_witness :
    watcherW.Start
        ([.ev { type := .added, object := some (.pod { name := "ok" }) }] ++
          .ev { type := .added, object := some (.pod { name := "boom" }) } ::
            [.ev { type := .added, object := some (.pod { name := "later" }) }]) [] =
      (.returned (some { name := "boom" }) (some "hook failed") false,
        [(.added, { name := "ok" }), (.added, { name := "boom" })]) :=
  hook_error_fail_fast watcherW _ _ [(.added, { name := "ok" })] _
    { name := "boom" } addHookW "hook failed" rfl rfl rfl rfl rfl

/-- C3: whenever the stop signal fires or the upstream context is cancelled,
the loop stops the underlying watch subscription (`watcherStopped = true`)
and returns a nil pod and nil error, whatever notifications (here: any
blocked prefix `pre`, with any hook trace `tr`) were observed before. -/
theorem stop_or_cancel_normal_exit (w : PodWatcher) (pre rest : List LoopInput)
    (tr : List HookCall) (s : LoopInput)
    (hs : s = .ctxDone ∨ s = .stop)
    (hpre : w.Start pre [] = (.blocked, tr)) :
    w.Start (pre ++ s :: rest) [] = (.returned none none true, tr) := by
  rw [start_append_blocked w pre (s :: rest) [] tr hpre]
  rcases hs with h | h <;> subst h <;> rfl

theorem stop_or_cancel_normal_exit_witness :
    watcherW.Start
        ([.ev { type := .added, object := some (.pod { name := "ok" }) }] ++
          .stop :: []) [] =
      (.returned none none true, [(.added, { name := "ok" })]) :=
  stop_or_cancel_normal_exit watcherW _ [] [(.added, { name := "ok" })] .stop
    (Or.inr rfl) rfl

/-- C4: over any delivered notification sequence whose registered hooks all
succeed, the loop invokes hooks exactly in delivery order, at most one hook
per notification — the hook matching the notification's tag, if registered
(`dispatchOf`) — with a true skip predicate suppressing the dispatch, an
unregistered tag (e.g. `Deleted` with no delete hook) a no-op, and the loop
still running without error afterwards. -/
theorem dispatch_order_and_skip (w : PodWatcher) (events : List Event)
    (hno : ∀ ty fn, w.hookFor ty = some fn → ∀ p, fn p = none) :
    w.Start (events.map .ev) [] = (.blocked, events.filterMap w.dispatchOf) := by
  induction events with
  | nil => rfl
  | cons e es ih =>
    rw [List.map_cons, start_ev_cons, List.filterMap_cons, dispatchOf_eq]
    rcases hco : w.hookOutcome e with _ | ⟨⟨ty, pod⟩, _ | err⟩
    · simp only [hco, Option.map_none]
      exact ih
    · simp only [hco, Option.map_some]
      rw [start_trace, ih]
      simp
    · obtain ⟨hty, fn, hf, hfe⟩ := hookOutcome_some_elim hco
      rw [hno e.type fn hf pod] at hfe
      exact absurd hfe (by simp)

theorem dispatch_order_and_skip_witness :
    watcherQ.Start (eventsQ.map .ev) [] =
      (.blocked, [(.added, { name := "a" })]) :=
  (dispatch_order_and_skip watcherQ eventsQ
    (by
      intro ty fn hf p
      cases ty
      case added =>
        injection hf with hfn
        subst hfn
        rfl
      case modified => exact Option.noConfusion hf
      case deleted => exact Option.noConfusion hf
      case other => exact Option.noConfusion hf)).trans (by decide)

/-- C5: a notification with no payload, or whose payload is not a Pod, is
dropped silently: running the loop on it is the same as running the loop on
the remaining schedule — no hook runs, no error is produced. -/
theorem nil_or_non_pod_payload_dropped (w : PodWatcher) (e : Event)
    (rest : List LoopInput) (tr : List HookCall)
    (h : e.object = none ∨ e.object = some .nonPod) :
    w.Start (.ev e :: rest) tr = w.Start rest tr := by
  rcases e with ⟨ty, obj⟩
  rcases h with h | h <;> simp only at h <;> subst h <;> rfl

theorem nil_or_non_pod_payload_dropped_witness :
    watcherW.Start (.ev { type := .modified, object := none } :: [.stop]) [] =
      watcherW.Start [.stop] [] :=
  nil_or_non_pod_payload_dropped watcherW { type := .modified, object := none }
    [.stop] [] (Or.inl rfl)

/-- C6: every line a reader task writes for container `c` is exactly
`"[" ++ d ++ "] " ++ line ++ "\n"` where the display name `d` is `c` with a
single leading `step-` marker removed, and `d = c` when `c` has no such
marker; and the task writes exactly one such line per scanned line, in
stream order. -/
theorem tail_line_format (container line : GoStr) :
    (∀ r, container = "step-".data ++ r →
        tailLineOut container line =
          "[".data ++ r ++ "] ".data ++ line ++ "\n".data) ∧
    ((¬ ∃ r, container = "step-".data ++ r) →
        tailLineOut container line =
          "[".data ++ container ++ "] ".data ++ line ++ "\n".data) ∧
    (∀ lines, (readerTask container (.success lines)).1 =
        lines.map (tailLineOut container)) := by
  refine ⟨?_, ?_, ?_⟩
  · intro r hr
    subst hr
    unfold tailLineOut
    rw [containerName_marker]
  · intro hne
    unfold tailLineOut
    rw [containerName_plain container hne]
  · intro lines
    rfl

theorem tail_line_format_witness :
    tailLineOut "step-build".data "a".data = "[build] a\n".data :=
  ((tail_line_format "step-build".data "a".data).1 "build".data
    (by decide)).trans (by decide)

/-- C7: when opening the log stream for one attachment fails, that reader
task writes the open error to the error sink and produces no output lines;
the stdout lines of every sibling attachment are exactly what they are
standalone, so the failure stops neither the other attachments nor the
coordinator — and the model's reader returns only sink writes, never a
function error. -/
theorem open_error_isolated (pre post : List Attachment) (c msg : GoStr) :
    readerTask c (.failure msg) = ([], [msg]) ∧
    (tailRunAll (pre ++ [{ container := c, opened := .failure msg }] ++ post)).1 =
      (tailRunAll pre).1 ++ [[]] ++ (tailRunAll post).1 ∧
    (tailRunAll (pre ++ [{ container := c, opened := .failure msg }] ++ post)).2 =
      (tailRunAll pre).2 ++ [msg] ++ (tailRunAll post).2 := by
  refine ⟨rfl, ?_, ?_⟩ <;>
    simp [tailRunAll, readerTask]

/-- C8 counterexample: the claim's final clause — every sub-structure with a
non-zero field is left in place — fails: an `Output` whose image is empty
and credentials absent is replaced by nil even though its `labels` field is
non-zero. -/
theorem sanitize_output_labels_cex :
    brLabelsOnly.output = some imgLabelsOnly ∧
    imgLabelsOnly.labels ≠ [] ∧
    (sanitizeValue brLabelsOnly).output = none :=
  ⟨rfl, by decide, rfl⟩

/-- C8 (amended): `SanitizeBuildRunSpec` replaces each optional sub-structure
whose *checked* fields are at their zero values with nil — `BuildRef` with
empty name and set-but-empty API version; `ServiceAccount` with unset/empty
name and unset/false generate; `Output`'s `Credentials` with empty name;
`Output` with empty image and absent (or sanitized-away) credentials,
regardless of labels and annotations; `Timeout` with zero duration; `Env`
of length zero — and leaves every sub-structure whose checked fields are
non-zero in place (for `Output`, with its credentials sanitized). -/
theorem sanitize_zero_value_amended (br : BuildRunSpec) :
    ((sanitizeValue br).buildRef = none ↔
      br.buildRef = none ∨ br.buildRef = some { name := "", apiVersion := some "" }) ∧
    ((sanitizeValue br).buildRef ≠ none → (sanitizeValue br).buildRef = br.buildRef) ∧
    ((sanitizeValue br).serviceAccount = none ↔
      br.serviceAccount = none ∨ ∃ sa, br.serviceAccount = some sa ∧
        (sa.name = none ∨ sa.name = some "") ∧
        (sa.generate = none ∨ sa.generate = some false)) ∧
    ((sanitizeValue br).serviceAccount ≠ none →
      (sanitizeValue br).serviceAccount = br.serviceAccount) ∧
    ((sanitizeValue br).timeout = none ↔
      br.timeout = none ∨ br.timeout = some { duration := 0 }) ∧
    ((sanitizeValue br).timeout ≠ none → (sanitizeValue br).timeout = br.timeout) ∧
    ((sanitizeValue br).env = none ↔ sliceLen br.env = 0) ∧
    ((sanitizeValue br).env ≠ none → (sanitizeValue br).env = br.env) ∧
    ((sanitizeValue br).output = none ↔
      br.output = none ∨ ∃ o, br.output = some o ∧ o.image = "" ∧
        (o.credentials = none ∨ o.credentials = some { name := "" })) ∧
    (∀ o, br.output = some o → (sanitizeValue br).output ≠ none →
      (sanitizeValue br).output =
        some { o with credentials :=
          if o.credentials = some { name := "" } then none else o.credentials }) :=
  ⟨san_buildRef_iff br, san_buildRef_keep br, san_serviceAccount_iff br,
    san_serviceAccount_keep br, san_timeout_iff br, san_timeout_keep br,
    san_env_iff br, san_env_keep br, san_output_iff br,
    fun o hbr h => san_output_keep br o hbr h⟩

theorem sanitize_zero_value_amended_witness :
    (sanitizeValue brZeroish).buildRef = none :=
  (sanitize_zero_value_amended brZeroish).1.mpr (Or.inr rfl)

/-- C9: calling `SanitizeBuildRunSpec` on a nil spec pointer is a safe
no-op: the guard returns immediately and nothing is modified. -/
theorem sanitize_nil_spec_noop : SanitizeBuildRunSpec none = none := rfl

/-- C10: the `Output` sub-structure is set to nil whenever its image is empty
and its credentials are absent or have an empty name — the `labels` and
`annotations` fields are not consulted, so they never preserve `Output`. -/
theorem sanitize_output_ignores_labels (br : BuildRunSpec) (o : Image)
    (hbr : br.output = some o) (himg : o.image = "")
    (hcred : o.credentials = none ∨ o.credentials = some { name := "" }) :
    (sanitizeValue br).output = none :=
  (san_output_iff br).mpr (Or.inr ⟨o, hbr, himg, hcred⟩)

theorem sanitize_output_ignores_labels_witness :
    (sanitizeValue brCredLabels).output = none :=
  sanitize_output_ignores_labels brCredLabels imgCredLabels rfl rfl (Or.inr rfl)

end CliVerify
